import Mathlib

/-!
Shallow embedding of the pgmug authorization gateway (Rust sources
`src/config.rs`, `src/oidc.rs`, `src/postgres.rs`, `src/main.rs`) and proofs
about its token-validation engine, key-set cache, auth middleware and
session gate.

Modelling conventions:
* Machine integers (`u64`, `usize`) are `Nat`; the token clock is seconds.
* `Instant::elapsed()` at time `now` for an instant `t` is `now - t`
  (truncated `Nat` subtraction, matching the non-negativity of `elapsed`).
* Cryptographic signatures are symbolic (Dolev-Yao style): a signature
  carries the algorithm it was produced with and the public key material of
  the signing key; verification against key material `k` and algorithm `a`
  succeeds exactly when the signature was produced with (the private
  counterpart of) `k` under `a`.  Base64 decoding of JWK components is
  treated as always succeeding (components are opaque strings).
* Network I/O (the JWKS fetch) is an explicit oracle argument
  `fetched : Except String Jwks`; the real `fetch_jwks` both returns the
  fetched document and overwrites the cache, and that state change is made
  explicit.
* The async semaphore of `PostgresPool` is a step relation on a pool state.
-/

namespace Pgmug

/-! ## Configuration (`src/config.rs`) -/

/-- `OidcConfig` from `src/config.rs` lines 27-34. -/
structure OidcConfig where
  issuer_url : String
  client_id : String
  audience : Option String
  jwks_cache_duration_seconds : Nat
  skip_validation : Option Bool
  dev_secret : Option String
  deriving Repr, DecidableEq

/-- `DatabaseConfig` from `src/config.rs` lines 17-24. -/
structure DatabaseConfig where
  host : String
  port : Nat
  username : String
  password : String
  database : String
  max_connections : Nat
  deriving Repr, DecidableEq

/-! ## JWKS data model (`src/oidc.rs` lines 29-51) -/

/-- `JwksKey` from `src/oidc.rs` lines 30-41 (the serde field `use` is
`key_use` here, as in the Rust field name). -/
structure JwksKey where
  kty : String
  key_use : Option String
  kid : Option String
  n : Option String
  e : Option String
  x : Option String
  y : Option String
  crv : Option String
  alg : Option String
  deriving Repr, DecidableEq

/-- `Jwks` from `src/oidc.rs` lines 44-46. -/
structure Jwks where
  keys : List JwksKey
  deriving Repr, DecidableEq

/-- `CachedJwks` from `src/oidc.rs` lines 48-51; `cached_at` is the
`Instant` at which the set was stored. -/
structure CachedJwks where
  jwks : Jwks
  cached_at : Nat
  deriving Repr, DecidableEq

/-! ## Tokens and claims -/

/-- The `jsonwebtoken::Algorithm` enum. -/
inductive Alg where
  | HS256 | HS384 | HS512
  | RS256 | RS384 | RS512
  | ES256 | ES384
  | PS256 | PS384 | PS512
  | EdDSA
  deriving Repr, DecidableEq

/-- Algorithm families, as used by `jsonwebtoken` to match a decoding key
against the algorithm it is asked to verify. -/
inductive AlgFamily where
  | Hmac | Rsa | Ec | Ed
  deriving Repr, DecidableEq

/-- The family of each algorithm (`jsonwebtoken::AlgorithmFamily`). -/
def Alg.family : Alg → AlgFamily
  | .HS256 | .HS384 | .HS512 => .Hmac
  | .RS256 | .RS384 | .RS512 | .PS256 | .PS384 | .PS512 => .Rsa
  | .ES256 | .ES384 => .Ec
  | .EdDSA => .Ed

/-- Audience claim value: a JSON string or an array of strings
(the `aud: Option<serde_json::Value>` field of `Claims`). -/
inductive Aud where
  | single : String → Aud
  | many : List String → Aud
  deriving Repr, DecidableEq

/-- `Claims` from `src/oidc.rs` lines 19-27.  The open `other` map of extra
claims is an association list of opaque values. -/
structure Claims where
  sub : String
  iss : String
  aud : Option Aud
  exp : Nat
  iat : Nat
  other : List (String × String)
  deriving Repr, DecidableEq

/-- `jsonwebtoken::DecodingKey` restricted to the constructors the code
uses: `from_rsa_components(n, e)` and `from_ec_components(x, y)`. -/
inductive DecodingKey where
  | rsa : String → String → DecodingKey
  | ec : String → String → DecodingKey
  deriving Repr, DecidableEq

/-- Family of a decoding key (RSA components give an RSA-family key, EC
components an EC-family key). -/
def DecodingKey.family : DecodingKey → AlgFamily
  | .rsa _ _ => .Rsa
  | .ec _ _ => .Ec

/-- JOSE header of a token: declared algorithm and optional key id. -/
structure Header where
  alg : Alg
  kid : Option String
  deriving Repr, DecidableEq

/-- Symbolic signature: the algorithm it was produced with and the public
key material of the key that produced it. -/
structure Sig where
  alg : Alg
  key : DecodingKey
  deriving Repr, DecidableEq

/-- A parsed JWT: header, payload claims, and symbolic signature. -/
structure Token where
  header : Header
  claims : Claims
  sig : Sig
  deriving Repr, DecidableEq

/-! ## Errors (spec section 7 taxonomy, carried as `anyhow` messages in the
source) -/

inductive AuthError where
  | fetchFailed : String → AuthError
  | keyNotFound : AuthError
  | unsupportedKeyType : String → AuthError
  | missingKeyParam : String → AuthError
  | invalidAlgorithm : AuthError
  | invalidSignature : AuthError
  | expiredSignature : AuthError
  | invalidIssuer : AuthError
  | invalidAudience : AuthError
  deriving Repr, DecidableEq

/-! ## Key-set cache (`src/oidc.rs` lines 76-111) -/

/-- Result of a cache access: the returned document or error, the cache
state afterwards, and whether a network fetch was performed. -/
structure GetResult where
  result : Except String Jwks
  cache : Option CachedJwks
  didFetch : Bool
  deriving Repr

/-- `OidcValidator::fetch_jwks` (`src/oidc.rs` lines 76-96): performs the
network fetch (here the oracle `fetched`); on success stores the document
with the current instant, on failure leaves the cache untouched. -/
def fetch_jwks (cache : Option CachedJwks) (now : Nat)
    (fetched : Except String Jwks) : GetResult :=
  match fetched with
  | .ok j => ⟨.ok j, some ⟨j, now⟩, true⟩
  | .error msg => ⟨.error msg, cache, true⟩

/-- `OidcValidator::get_jwks` (`src/oidc.rs` lines 98-111): return the
cached set if its age is below the configured TTL, otherwise fetch. -/
def get_jwks (cfg : OidcConfig) (cache : Option CachedJwks) (now : Nat)
    (fetched : Except String Jwks) : GetResult :=
  match cache with
  | some cached =>
    if now - cached.cached_at < cfg.jwks_cache_duration_seconds then
      ⟨.ok cached.jwks, cache, false⟩
    else
      fetch_jwks cache now fetched
  | none => fetch_jwks cache now fetched

/-! ## Key selection and key construction (`src/oidc.rs` lines 113-137) -/

/-- `OidcValidator::find_key` (`src/oidc.rs` lines 113-119): exact match on
the declared `kid`, or the first key of the set when no `kid` is declared. -/
def find_key (jwks : Jwks) (kid : Option String) : Option JwksKey :=
  match kid with
  | some k => jwks.keys.find? fun key => key.kid == some k
  | none => jwks.keys.head?

/-- `OidcValidator::create_decoding_key` (`src/oidc.rs` lines 121-137):
RSA keys need `n` and `e` (checked in that order), EC keys need `x` and
`y`; any other `kty` is `UnsupportedKeyType`. -/
def create_decoding_key (key : JwksKey) : Except AuthError DecodingKey :=
  if key.kty = "RSA" then
    match key.n, key.e with
    | none, _ => .error (.missingKeyParam "n")
    | some _, none => .error (.missingKeyParam "e")
    | some n, some e => .ok (.rsa n e)
  else if key.kty = "EC" then
    match key.x, key.y with
    | none, _ => .error (.missingKeyParam "x")
    | some _, none => .error (.missingKeyParam "y")
    | some x, some y => .ok (.ec x y)
  else .error (.unsupportedKeyType key.kty)

/-! ## Claim validation (`jsonwebtoken::Validation` and `decode`) -/

/-- The default clock-skew leeway of `jsonwebtoken::Validation::new`,
in seconds. -/
def defaultLeeway : Nat := 60

/-- The fields of `jsonwebtoken::Validation` that the code sets (lines
155-162 of `src/oidc.rs`). -/
structure Validation where
  algorithms : List Alg
  iss : Option (List String)
  aud : Option (List String)
  leeway : Nat
  deriving Repr, DecidableEq

/-- `Validation::new(Algorithm::RS256)` followed by the issuer/audience
setup of `src/oidc.rs` lines 155-162: issuer is always the configured
issuer URL; audience is the explicit `audience` if configured, else the
`client_id` when non-empty, else unchecked. -/
def build_validation (cfg : OidcConfig) : Validation :=
  let v : Validation :=
    { algorithms := [.RS256], iss := some [cfg.issuer_url], aud := none,
      leeway := defaultLeeway }
  match cfg.audience with
  | some a => { v with aud := some [a] }
  | none =>
    if cfg.client_id ≠ "" then { v with aud := some [cfg.client_id] }
    else v

/-- Issuer check of `jsonwebtoken`: when an expected issuer set is
configured, the token's `iss` must be one of them. -/
def issOk (iss : Option (List String)) (c : Claims) : Bool :=
  match iss with
  | none => true
  | some l => l.contains c.iss

/-- Audience check of `jsonwebtoken`: when an expected audience set is
configured, the token must carry an `aud` claim intersecting it. -/
def audOk (aud : Option (List String)) (c : Claims) : Bool :=
  match aud with
  | none => true
  | some l =>
    match c.aud with
    | none => false
    | some (.single s) => l.contains s
    | some (.many xs) => xs.any fun s => l.contains s

/-- `jsonwebtoken::decode::<Claims>` on an already-parsed token: the header
algorithm must be among the allowed ones, the key family must match the
algorithm family, the signature must verify under the given key and the
header algorithm, `exp` must satisfy `¬ (exp < now - leeway)`, and issuer
and audience must pass their checks. -/
def decode (token : Token) (key : DecodingKey) (v : Validation) (now : Nat) :
    Except AuthError Claims :=
  if token.header.alg ∈ v.algorithms then
    if key.family = token.header.alg.family then
      if token.sig.alg = token.header.alg ∧ token.sig.key = key then
        if token.claims.exp < now - v.leeway then .error .expiredSignature
        else if issOk v.iss token.claims then
          if audOk v.aud token.claims then .ok token.claims
          else .error .invalidAudience
        else .error .invalidIssuer
      else .error .invalidSignature
    else .error .invalidAlgorithm
  else .error .invalidAlgorithm

/-! ## `OidcValidator::validate_token` (`src/oidc.rs` lines 139-168) -/

/-- `validate_token`: decode the header (here: read it off the structured
token), obtain the key set through the cache, select the key, build the
decoding key, and decode with the validation built from the configuration.
Returns the validation outcome together with the cache state afterwards. -/
def validate_token (cfg : OidcConfig) (cache : Option CachedJwks) (now : Nat)
    (fetched : Except String Jwks) (token : Token) :
    Except AuthError Claims × Option CachedJwks :=
  match get_jwks cfg cache now fetched with
  | ⟨.error msg, cache2, _⟩ => (.error (.fetchFailed msg), cache2)
  | ⟨.ok jwks, cache2, _⟩ =>
    match find_key jwks token.header.kid with
    | none => (.error .keyNotFound, cache2)
    | some key =>
      match create_decoding_key key with
      | .error err => (.error err, cache2)
      | .ok dk => (decode token dk (build_validation cfg) now, cache2)

/-! ## Auth middleware (`src/oidc.rs` lines 171-211)

The middleware receives the request path and the (string) value of the
`Authorization` header when one is present and readable (`to_str`
failure is modelled as absence, since both take the same `ok_or_else`
branch).  Token validation is a parameter
`validate : String → Except AuthError Claims`, so that theorems can
quantify over every possible behaviour of the validator. -/

/-- `auth_header.strip_prefix("Bearer ")` of `src/oidc.rs` line 193:
`some` of the remainder when the header starts with the 7 characters
`Bearer` and a space, `none` otherwise. -/
def stripBearer (s : String) : Option String :=
  if "Bearer ".data.isPrefixOf s.data then some (String.mk (s.data.drop 7))
  else none

/-- `auth_middleware` (`src/oidc.rs` lines 171-211): `/health` passes
unconditionally; otherwise a missing header or a non-bearer scheme is an
immediate `401`; otherwise the token is validated and any validation error
becomes the bare status code `401` (`StatusCode::UNAUTHORIZED`), while
success runs the inner handler (`next.run`, modelled as `.ok ()`). -/
def auth_middleware (validate : String → Except AuthError Claims)
    (path : String) (authHeader : Option String) : Except Nat Unit :=
  if path = "/health" then .ok ()
  else
    match authHeader with
    | none => .error 401
    | some header =>
      match stripBearer header with
      | none => .error 401
      | some token =>
        match validate token with
        | .ok _ => .ok ()
        | .error _ => .error 401

/-! ## Session gate (`src/postgres.rs`)

`PostgresPool` holds `Semaphore::new(config.max_connections)`;
`get_client` awaits `acquire_owned()` and wraps the permit in the returned
`PostgresClient`, whose drop releases it.  This is modelled as a labelled
step relation on a pool state: tasks enter the wait queue, are granted a
permit only while the number of holders is below capacity, may be
cancelled while waiting (dropping the `acquire_owned` future — e.g. a
caller-side timeout firing — consumes no permit: tokio's documented cancel
safety), and release their permit when the client is dropped (also on the
error path when `tokio_postgres::connect` fails, since the permit binding
is dropped). -/

/-- State of the session gate: capacity, the ids currently holding a
permit (unreleased clients), and the ids blocked in `acquire_owned`. -/
structure PoolState where
  max_connections : Nat
  holders : List Nat
  waiting : List Nat
  deriving Repr, DecidableEq

/-- `PostgresPool::new` (`src/postgres.rs` lines 36-39): the semaphore
starts with `max_connections` permits, none held, nobody waiting. -/
def PoolState.init (cfg : DatabaseConfig) : PoolState :=
  ⟨cfg.max_connections, [], []⟩

/-- One transition of the session gate. -/
inductive PoolStep : PoolState → PoolState → Prop where
  | request (s : PoolState) (id : Nat) :
      id ∉ s.holders → id ∉ s.waiting →
      PoolStep s ⟨s.max_connections, s.holders, id :: s.waiting⟩
  | grant (s : PoolState) (id : Nat) :
      id ∈ s.waiting → s.holders.length < s.max_connections →
      PoolStep s ⟨s.max_connections, id :: s.holders, s.waiting.erase id⟩
  | cancel (s : PoolState) (id : Nat) :
      id ∈ s.waiting →
      PoolStep s ⟨s.max_connections, s.holders, s.waiting.erase id⟩
  | release (s : PoolState) (id : Nat) :
      id ∈ s.holders →
      PoolStep s ⟨s.max_connections, s.holders.erase id, s.waiting⟩

/-- States reachable from the freshly constructed pool. -/
def PoolReachable (cfg : DatabaseConfig) : PoolState → Prop :=
  Relation.ReflTransGen PoolStep (PoolState.init cfg)

/-- Well-formedness invariant of the gate: capacity is the configured one,
holders are within capacity and duplicate-free, the wait queue is
duplicate-free, and no id both holds and waits. -/
def PoolInv (cfg : DatabaseConfig) (s : PoolState) : Prop :=
  s.max_connections = cfg.max_connections ∧
  s.holders.length ≤ s.max_connections ∧
  s.holders.Nodup ∧ s.waiting.Nodup ∧
  ∀ id, id ∈ s.holders → id ∉ s.waiting

/-! ## Concrete fixtures used by counterexamples and witnesses -/

/-- A concrete OIDC configuration with an explicit audience. -/
def exCfg : OidcConfig :=
  { issuer_url := "https:issuer.example", client_id := "client-1",
    audience := some "aud-1", jwks_cache_duration_seconds := 3600,
    skip_validation := some false, dev_secret := none }

/-- RSA key `key-a` of the example key set. -/
def exKeyA : JwksKey :=
  { kty := "RSA", key_use := some "sig", kid := some "key-a",
    n := some "modulusA", e := some "AQAB", x := none, y := none,
    crv := none, alg := some "RS256" }

/-- RSA key `key-b` of the example key set. -/
def exKeyB : JwksKey :=
  { kty := "RSA", key_use := some "sig", kid := some "key-b",
    n := some "modulusB", e := some "AQAB", x := none, y := none,
    crv := none, alg := some "RS256" }

/-- An EC key, structurally complete. -/
def exKeyEc : JwksKey :=
  { kty := "EC", key_use := some "sig", kid := some "key-ec",
    n := none, e := none, x := some "coordX", y := some "coordY",
    crv := some "P-256", alg := some "ES256" }

/-- The example key set. -/
def exJwks : Jwks := ⟨[exKeyA, exKeyB]⟩

/-- A key set whose only key is the EC key. -/
def exJwksEc : Jwks := ⟨[exKeyEc]⟩

/-- The verification instant used by the fixtures (seconds). -/
def exNow : Nat := 1000

/-- Claims matching `exCfg`, expiring in the future (at 2000 > `exNow`). -/
def exClaims : Claims :=
  { sub := "alice", iss := "https:issuer.example",
    aud := some (.single "aud-1"), exp := 2000, iat := 500, other := [] }

/-- A well-formed token: declares `kid` `key-a` and is signed (RS256) with
key `key-a`'s material. -/
def exTokenGood : Token :=
  { header := ⟨.RS256, some "key-a"⟩, claims := exClaims,
    sig := ⟨.RS256, .rsa "modulusA" "AQAB"⟩ }

/-- Cross-signed token: declares `kid` `key-a` but is signed (RS256) with
key `key-b`'s material — the signing key is in the set, yet it is not the
key selected for verification. -/
def exTokenCross : Token :=
  { header := ⟨.RS256, some "key-a"⟩, claims := exClaims,
    sig := ⟨.RS256, .rsa "modulusB" "AQAB"⟩ }

/-- Claims just expired: `exp = 999 < exNow`, but within the 60-second
leeway (`999 ≥ exNow - 60 = 940`). -/
def exClaimsJustExpired : Claims := { exClaims with exp := 999 }

/-- Token with just-expired claims, otherwise identical to `exTokenGood`. -/
def exTokenJustExpired : Token := { exTokenGood with claims := exClaimsJustExpired }

/-- Claims long expired: `exp = 100`, more than the leeway before `exNow`. -/
def exClaimsLongExpired : Claims := { exClaims with exp := 100 }

/-- Token with long-expired claims, otherwise identical to `exTokenGood`. -/
def exTokenLongExpired : Token := { exTokenGood with claims := exClaimsLongExpired }

/-- Token declaring a `kid` that no key of `exJwks` carries. -/
def exTokenUnknownKid : Token :=
  { exTokenGood with header := ⟨.RS256, some "key-z"⟩ }

/-- Token declaring `kid` `key-ec`, signed with the EC key's material but
claiming RS256 in the header. -/
def exTokenEc : Token :=
  { header := ⟨.RS256, some "key-ec"⟩, claims := exClaims,
    sig := ⟨.ES256, .ec "coordX" "coordY"⟩ }

/-- Token whose header declares HS256. -/
def exTokenHs : Token :=
  { header := ⟨.HS256, some "key-a"⟩, claims := exClaims,
    sig := ⟨.RS256, .rsa "modulusA" "AQAB"⟩ }

/-- A database configuration with `max_connections = 2`. -/
def exDbCfg : DatabaseConfig :=
  { host := "localhost", port := 5432, username := "postgres",
    password := "password", database := "postgres", max_connections := 2 }

/-- Pool scenario states (capacity 2): tasks 1 and 2 acquire, task 3
waits, task 1 releases, task 3 is granted. -/
def poolP0 : PoolState := PoolState.init exDbCfg
def poolP1 : PoolState := ⟨2, [], [1]⟩
def poolP2 : PoolState := ⟨2, [1], []⟩
def poolP3 : PoolState := ⟨2, [1], [2]⟩
def poolP4 : PoolState := ⟨2, [2, 1], []⟩
def poolP5 : PoolState := ⟨2, [2, 1], [3]⟩
def poolP6 : PoolState := ⟨2, [2], [3]⟩
def poolP7 : PoolState := ⟨2, [3, 2], []⟩

/-- A pool state with one waiter and no holder, reached by a single
`request` from the initial state. -/
def poolW : PoolState := ⟨2, [], [7]⟩

/-! ## Helper lemmas -/

/-- The validation always allows exactly RS256. -/
theorem build_validation_algorithms (cfg : OidcConfig) :
    (build_validation cfg).algorithms = [.RS256] := by
  unfold build_validation
  cases cfg.audience
  · dsimp only
    split <;> rfl
  · rfl

/-- The validation always expects exactly the configured issuer. -/
theorem build_validation_iss (cfg : OidcConfig) :
    (build_validation cfg).iss = some [cfg.issuer_url] := by
  unfold build_validation
  cases cfg.audience
  · dsimp only
    split <;> rfl
  · rfl

/-- The validation always carries the default 60-second leeway. -/
theorem build_validation_leeway (cfg : OidcConfig) :
    (build_validation cfg).leeway = defaultLeeway := by
  unfold build_validation
  cases cfg.audience
  · dsimp only
    split <;> rfl
  · rfl

/-- The singleton issuer check is equality with that issuer. -/
theorem issOk_singleton (s : String) (c : Claims) :
    issOk (some [s]) c = true ↔ c.iss = s := by
  simp [issOk]

/-- Inversion of a successful `decode`: every guard of the pipeline held. -/
theorem decode_ok_inversion {token : Token} {key : DecodingKey}
    {v : Validation} {now : Nat} {c : Claims}
    (h : decode token key v now = .ok c) :
    c = token.claims ∧ token.header.alg ∈ v.algorithms ∧
    key.family = token.header.alg.family ∧
    token.sig.alg = token.header.alg ∧ token.sig.key = key ∧
    ¬ token.claims.exp < now - v.leeway ∧
    issOk v.iss token.claims = true ∧ audOk v.aud token.claims = true := by
  unfold decode at h
  repeat' split at h
  all_goals simp_all

/-- Inversion of a successful `validate_token`: the pipeline found a key,
built RSA-family material matching the symbolic signature, and every claim
check of the RS256 validation held. -/
theorem validate_token_ok_inversion {cfg : OidcConfig}
    {cache : Option CachedJwks} {now : Nat} {fetched : Except String Jwks}
    {token : Token} {c : Claims}
    (h : (validate_token cfg cache now fetched token).fst = .ok c) :
    c = token.claims ∧ token.header.alg = .RS256 ∧
    token.sig.alg = .RS256 ∧
    ¬ token.claims.exp < now - defaultLeeway ∧
    token.claims.iss = cfg.issuer_url ∧
    audOk (build_validation cfg).aud token.claims = true ∧
    ∃ jwks key dk,
      (get_jwks cfg cache now fetched).result = .ok jwks ∧
      find_key jwks token.header.kid = some key ∧
      create_decoding_key key = .ok dk ∧
      dk.family = .Rsa ∧ token.sig.key = dk := by
  unfold validate_token at h
  split at h
  · simp at h
  · rename_i g jwks cache2 didF hg
    split at h
    · simp at h
    · rename_i key hkey
      split at h
      · simp at h
      · rename_i dk hdk
        simp only at h
        have hd := decode_ok_inversion h
        obtain ⟨hc, halgmem, hfam, hsigalg, hsigkey, hexp, hissb, haudb⟩ := hd
        rw [build_validation_algorithms] at halgmem
        simp only [List.mem_singleton] at halgmem
        rw [build_validation_leeway] at hexp
        rw [build_validation_iss] at hissb
        refine ⟨hc, halgmem, by rw [hsigalg, halgmem], hexp,
          (issOk_singleton _ _).mp hissb, haudb,
          jwks, key, dk, ?_, hkey, hdk, ?_, hsigkey⟩
        · rw [hg]
        · rw [hfam, halgmem]; rfl

/-- The freshly constructed pool satisfies the invariant. -/
theorem poolInv_init (cfg : DatabaseConfig) : PoolInv cfg (PoolState.init cfg) := by
  refine ⟨rfl, by simp [PoolState.init], by simp [PoolState.init],
    by simp [PoolState.init], by simp [PoolState.init]⟩

/-- Every gate transition preserves the invariant. -/
theorem poolInv_step {cfg : DatabaseConfig} {s s' : PoolState}
    (hinv : PoolInv cfg s) (hstep : PoolStep s s') : PoolInv cfg s' := by
  obtain ⟨hmax, hlen, hnodH, hnodW, hdisj⟩ := hinv
  cases hstep with
  | request id hH hW =>
    refine ⟨hmax, hlen, hnodH, List.nodup_cons.mpr ⟨hW, hnodW⟩, ?_⟩
    intro i hi
    simp only [List.mem_cons, not_or]
    exact ⟨fun hie => hH (hie ▸ hi), hdisj i hi⟩
  | grant id hW hlt =>
    have hidH : id ∉ s.holders := fun hmem => hdisj id hmem hW
    refine ⟨hmax, Nat.succ_le_of_lt hlt, List.nodup_cons.mpr ⟨hidH, hnodH⟩,
      List.Nodup.erase id hnodW, ?_⟩
    intro i hi hi'
    obtain ⟨hne, hiw⟩ := (List.Nodup.mem_erase_iff hnodW).mp hi'
    rcases List.mem_cons.mp hi with rfl | hiH
    · exact hne rfl
    · exact hdisj i hiH hiw
  | cancel id hW =>
    refine ⟨hmax, hlen, hnodH, List.Nodup.erase id hnodW, ?_⟩
    intro i hi hi'
    exact hdisj i hi (List.mem_of_mem_erase hi')
  | release id hH =>
    refine ⟨hmax, le_trans (List.Sublist.length_le (List.erase_sublist id s.holders)) hlen,
      List.Nodup.erase id hnodH, hnodW, ?_⟩
    intro i hi
    exact hdisj i (List.mem_of_mem_erase hi)

/-- Every reachable state of the gate satisfies the invariant. -/
theorem poolInv_reachable {cfg : DatabaseConfig} {s : PoolState}
    (h : PoolReachable cfg s) : PoolInv cfg s := by
  induction h with
  | refl => exact poolInv_init cfg
  | tail _ hstep ih => exact poolInv_step ih hstep

/-! ## Claim theorems -/

/-- Claim C2: for every token on which validation fails — whatever the
internal `AuthError` variant — the auth middleware answers with the bare
status `401`; the response is the same constant for any two failing
validators, so it carries no information about the internal cause. -/
theorem auth_middleware_uniform_401
    (v v' : String → Except AuthError Claims) (path header token : String)
    (e e' : AuthError)
    (hpath : path ≠ "/health")
    (hstrip : stripBearer header = some token)
    (hv : v token = .error e) (hv' : v' token = .error e') :
    auth_middleware v path (some header) = .error 401 ∧
    auth_middleware v path (some header) = auth_middleware v' path (some header) := by
  simp only [auth_middleware, if_neg hpath, hstrip, hv, hv', and_self]

/-- Witness for C2: two validators failing with different internal errors
(key not found vs. bad signature) on `/query` both yield exactly `401`. -/
theorem auth_middleware_uniform_401_witness :
    ("/query" : String) ≠ "/health" ∧
    stripBearer "Bearer tok" = some "tok" ∧
    (fun (_ : String) => (.error .keyNotFound : Except AuthError Claims)) "tok" =
      .error .keyNotFound ∧
    auth_middleware (fun _ => .error .keyNotFound) "/query" (some "Bearer tok") =
      .error 401 ∧
    auth_middleware (fun _ => .error .keyNotFound) "/query" (some "Bearer tok") =
      auth_middleware (fun _ => .error .invalidSignature) "/query" (some "Bearer tok") := by
  refine ⟨by decide, by decide, rfl, ?_⟩
  exact auth_middleware_uniform_401 (fun _ => .error .keyNotFound)
    (fun _ => .error .invalidSignature) "/query" "Bearer tok" "tok"
    .keyNotFound .invalidSignature (by decide) (by decide) rfl rfl

/-- Claim C9: `/health` passes the middleware with no `Authorization`
header for every validator; any other path with a missing header or a
non-bearer scheme is rejected with `401`, and the result is the same for
every validator — the validator is never consulted. -/
theorem health_passthrough_and_bearer_gate :
    (∀ v : String → Except AuthError Claims,
      auth_middleware v "/health" none = .ok ()) ∧
    (∀ (v v' : String → Except AuthError Claims) (path : String)
       (hdr : Option String),
      path ≠ "/health" →
      (hdr = none ∨ ∃ h, hdr = some h ∧ stripBearer h = none) →
      auth_middleware v path hdr = .error 401 ∧
      auth_middleware v path hdr = auth_middleware v' path hdr) := by
  constructor
  · intro v
    rfl
  · intro v v' path hdr hpath hbad
    rcases hbad with rfl | ⟨h, rfl, hstrip⟩
    · simp only [auth_middleware, if_neg hpath, and_self]
    · simp only [auth_middleware, if_neg hpath, hstrip, and_self]

/-- Witness for C9: `/health` with no header passes; `/query` with no
header, and `/query` with a Basic-scheme header, are both `401` under any
validator behaviour. -/
theorem health_passthrough_witness :
    auth_middleware (fun _ => .error .keyNotFound) "/health" none = .ok () ∧
    ("/query" : String) ≠ "/health" ∧
    stripBearer "Basic abc" = none ∧
    auth_middleware (fun _ => .ok exClaims) "/query" none = .error 401 ∧
    auth_middleware (fun _ => .ok exClaims) "/query" (some "Basic abc") = .error 401 := by
  refine ⟨health_passthrough_and_bearer_gate.1 _, by decide, by decide, ?_, ?_⟩
  · exact (health_passthrough_and_bearer_gate.2 (fun _ => .ok exClaims)
      (fun _ => .ok exClaims) "/query" none (by decide) (.inl rfl)).1
  · exact (health_passthrough_and_bearer_gate.2 (fun _ => .ok exClaims)
      (fun _ => .ok exClaims) "/query" (some "Basic abc") (by decide)
      (.inr ⟨"Basic abc", rfl, by decide⟩)).1

/-- Claim C6: `validate_token` is independent of the development-mode
fields: for every pair of configurations differing only in
`skip_validation` and `dev_secret`, it produces the same result (and the
same cache state); in particular no symmetric-secret validation path
exists in it. -/
theorem dev_bypass_unreachable (cfg : OidcConfig) (sv : Option Bool)
    (ds : Option String) (cache : Option CachedJwks) (now : Nat)
    (fetched : Except String Jwks) (token : Token) :
    validate_token { cfg with skip_validation := sv, dev_secret := ds }
        cache now fetched token =
      validate_token cfg cache now fetched token := by
  cases cfg
  rfl

/-- Claim C5: a get finding a cached entry younger than the TTL returns it
with no fetch and leaves the cache unchanged; a get finding no entry or an
entry of age ≥ TTL fetches, replaces the entry (stamped with the current
instant) and returns the fetched set; consequently two gets spaced less
than TTL apart perform at most one fetch between them (fetches assumed to
succeed, as the claim's replace-and-return behaviour presumes). -/
theorem jwks_cache_ttl :
    (∀ (cfg : OidcConfig) (j : Jwks) (t now : Nat)
       (fetched : Except String Jwks),
      now - t < cfg.jwks_cache_duration_seconds →
      get_jwks cfg (some ⟨j, t⟩) now fetched = ⟨.ok j, some ⟨j, t⟩, false⟩) ∧
    (∀ (cfg : OidcConfig) (cache : Option CachedJwks) (now : Nat) (j : Jwks),
      (cache = none ∨ ∃ c, cache = some c ∧
        ¬ now - c.cached_at < cfg.jwks_cache_duration_seconds) →
      get_jwks cfg cache now (.ok j) = ⟨.ok j, some ⟨j, now⟩, true⟩) ∧
    (∀ (cfg : OidcConfig) (cache : Option CachedJwks) (now1 now2 : Nat)
       (j1 j2 : Jwks),
      now2 - now1 < cfg.jwks_cache_duration_seconds →
      (get_jwks cfg cache now1 (.ok j1)).didFetch.toNat +
        (get_jwks cfg (get_jwks cfg cache now1 (.ok j1)).cache now2
          (.ok j2)).didFetch.toNat ≤ 1) := by
  refine ⟨?_, ?_, ?_⟩
  · intro cfg j t now fetched hfresh
    simp only [get_jwks]
    rw [if_pos hfresh]
  · intro cfg cache now j hstale
    rcases hstale with rfl | ⟨c, rfl, hstale⟩
    · rfl
    · simp only [get_jwks]
      rw [if_neg hstale]
      rfl
  · intro cfg cache now1 now2 j1 j2 hspace
    cases cache with
    | none =>
      simp only [get_jwks, fetch_jwks]
      rw [if_pos hspace]
      simp
    | some c =>
      by_cases hfresh : now1 - c.cached_at < cfg.jwks_cache_duration_seconds
      · simp only [get_jwks]
        rw [if_pos hfresh]
        simp only [get_jwks, fetch_jwks, Bool.toNat_false, Nat.zero_add]
        split
        · simp
        · simp
      · simp only [get_jwks, fetch_jwks]
        rw [if_neg hfresh]
        simp only [get_jwks]
        rw [if_pos hspace]
        simp

/-- Claim C4: a token declaring a `kid` carried by no key of the current
set fails with the key-not-found error; and whenever a `kid` is declared,
`find_key` only ever returns a key with exactly that `kid` — the first-key
fallback applies only to tokens declaring no `kid`. -/
theorem unknown_kid_rejected :
    (∀ (cfg : OidcConfig) (J : Jwks) (t now : Nat)
       (fetched : Except String Jwks) (token : Token) (k : String),
      now - t < cfg.jwks_cache_duration_seconds →
      token.header.kid = some k →
      (∀ K ∈ J.keys, K.kid ≠ some k) →
      (validate_token cfg (some ⟨J, t⟩) now fetched token).fst =
        .error .keyNotFound) ∧
    (∀ (J : Jwks) (k : String) (K : JwksKey),
      find_key J (some k) = some K → K.kid = some k) := by
  constructor
  · intro cfg J t now fetched token k hfresh hkid hnone
    have hfind : find_key J (some k) = none := by
      unfold find_key
      exact List.find?_eq_none.mpr fun K hK => by simp [hnone K hK]
    have hget : get_jwks cfg (some ⟨J, t⟩) now fetched =
        ⟨.ok J, some ⟨J, t⟩, false⟩ := by
      simp only [get_jwks]
      rw [if_pos hfresh]
    simp only [validate_token, hget, hkid, hfind]
  · intro J k K hfind
    unfold find_key at hfind
    simpa using List.find?_some hfind

/-- Witness for C5: a fresh entry (age 100 < 3600) is served with no
fetch; an empty cache triggers a fetch that stamps the entry; a fetch at
`exNow` followed by a get 100 seconds later performs exactly one fetch. -/
theorem jwks_cache_ttl_witness :
    exNow - 900 < exCfg.jwks_cache_duration_seconds ∧
    get_jwks exCfg (some ⟨exJwks, 900⟩) exNow (.ok exJwksEc) =
      ⟨.ok exJwks, some ⟨exJwks, 900⟩, false⟩ ∧
    get_jwks exCfg none exNow (.ok exJwks) =
      ⟨.ok exJwks, some ⟨exJwks, exNow⟩, true⟩ ∧
    (get_jwks exCfg none exNow (.ok exJwks)).didFetch.toNat +
      (get_jwks exCfg (get_jwks exCfg none exNow (.ok exJwks)).cache
        (exNow + 100) (.ok exJwksEc)).didFetch.toNat ≤ 1 :=
  ⟨by decide,
   jwks_cache_ttl.1 exCfg exJwks 900 exNow (.ok exJwksEc) (by decide),
   jwks_cache_ttl.2.1 exCfg none exNow exJwks (.inl rfl),
   jwks_cache_ttl.2.2 exCfg none exNow (exNow + 100) exJwks exJwksEc
     (by decide)⟩

/-- Witness for C4: the token declaring `kid` `key-z`, absent from
`exJwks`, is rejected with the key-not-found error. -/
theorem unknown_kid_rejected_witness :
    exNow - exNow < exCfg.jwks_cache_duration_seconds ∧
    exTokenUnknownKid.header.kid = some "key-z" ∧
    (∀ K ∈ exJwks.keys, K.kid ≠ some "key-z") ∧
    (validate_token exCfg (some ⟨exJwks, exNow⟩) exNow (.ok exJwks)
        exTokenUnknownKid).fst = .error .keyNotFound :=
  ⟨by decide, rfl, by decide,
   unknown_kid_rejected.1 exCfg exJwks exNow exNow (.ok exJwks)
     exTokenUnknownKid "key-z" (by decide) rfl (by decide)⟩

/-- A successful `create_decoding_key` on an EC-typed record yields an
EC-family key. -/
theorem create_decoding_key_ec_family {key : JwksKey} {dk : DecodingKey}
    (hkty : key.kty = "EC") (h : create_decoding_key key = .ok dk) :
    dk.family = .Ec := by
  unfold create_decoding_key at h
  rw [hkty] at h
  simp only [reduceIte] at h
  split at h
  · rename_i hra
    exact absurd hra (by decide)
  · split at h
    · simp at h
    · simp at h
    · rename_i x y hx hy
      obtain rfl : dk = .ec x y := by simpa using h.symm
      rfl

/-- Claim C3 (amended): a token whose `exp` lies more than the fixed
60-second leeway before verification time is rejected, even if its
signature is valid; the leeway is the constant 60 of
`jsonwebtoken::Validation::new` — neither zero nor unbounded.  (Tokens
expired by at most the leeway are accepted; see the counterexample.) -/
theorem expired_beyond_leeway_rejected :
    (∀ (cfg : OidcConfig) (cache : Option CachedJwks) (now : Nat)
       (fetched : Except String Jwks) (token : Token),
      token.claims.exp < now - defaultLeeway →
      (validate_token cfg cache now fetched token).fst.isOk = false) ∧
    defaultLeeway = 60 ∧ 0 < defaultLeeway := by
  refine ⟨?_, rfl, by decide⟩
  intro cfg cache now fetched token hexp
  cases hres : (validate_token cfg cache now fetched token).fst with
  | ok c =>
    obtain ⟨-, -, -, hnot, -⟩ := validate_token_ok_inversion hres
    exact absurd hexp hnot
  | error e => rfl

/-- Counterexample to C3 as stated: a token already expired at
verification time (`exp = 999 < now = 1000`) but within the 60-second
leeway is accepted with a valid signature. -/
theorem expired_within_leeway_accepted :
    exClaimsJustExpired.exp < exNow ∧
    (validate_token exCfg (some ⟨exJwks, exNow⟩) exNow (.ok exJwks)
        exTokenJustExpired).fst = .ok exClaimsJustExpired := by
  constructor
  · decide
  · rfl

/-- Witness for C3: a token expired by far more than the leeway
(`exp = 100`, `now = 1000`) is rejected. -/
theorem expired_beyond_leeway_rejected_witness :
    exTokenLongExpired.claims.exp < exNow - defaultLeeway ∧
    (validate_token exCfg (some ⟨exJwks, exNow⟩) exNow (.ok exJwks)
        exTokenLongExpired).fst.isOk = false :=
  ⟨by decide, expired_beyond_leeway_rejected.1 exCfg (some ⟨exJwks, exNow⟩)
      exNow (.ok exJwks) exTokenLongExpired (by decide)⟩

/-- Claim C10: validation is pinned to RS256 — a token whose header
declares any other algorithm is rejected; EC key material can be
constructed from a structurally complete EC record, yet a token whose
selected key is an EC record can never validate successfully. -/
theorem rs256_enforced :
    (∀ (cfg : OidcConfig) (cache : Option CachedJwks) (now : Nat)
       (fetched : Except String Jwks) (token : Token),
      token.header.alg ≠ .RS256 →
      (validate_token cfg cache now fetched token).fst.isOk = false) ∧
    (∀ (key : JwksKey) (x y : String),
      key.kty = "EC" → key.x = some x → key.y = some y →
      create_decoding_key key = .ok (.ec x y)) ∧
    (∀ (cfg : OidcConfig) (J : Jwks) (t now : Nat)
       (fetched : Except String Jwks) (token : Token) (key : JwksKey),
      now - t < cfg.jwks_cache_duration_seconds →
      find_key J token.header.kid = some key →
      key.kty = "EC" →
      (validate_token cfg (some ⟨J, t⟩) now fetched token).fst.isOk = false) := by
  refine ⟨?_, ?_, ?_⟩
  · intro cfg cache now fetched token halg
    cases hres : (validate_token cfg cache now fetched token).fst with
    | ok c =>
      obtain ⟨-, hrs, -⟩ := validate_token_ok_inversion hres
      exact absurd hrs halg
    | error e => rfl
  · intro key x y hkty hx hy
    unfold create_decoding_key
    rw [hkty, hx, hy]
    simp
  · intro cfg J t now fetched token key hfresh hfind hkty
    cases hres : (validate_token cfg (some ⟨J, t⟩) now fetched token).fst with
    | ok c =>
      obtain ⟨-, -, -, -, -, -, jwks, key2, dk, hget, hfind2, hdk, hfam, -⟩ :=
        validate_token_ok_inversion hres
      have hgetJ : get_jwks cfg (some ⟨J, t⟩) now fetched =
          ⟨.ok J, some ⟨J, t⟩, false⟩ := by
        simp only [get_jwks]
        rw [if_pos hfresh]
      rw [hgetJ] at hget
      obtain rfl : J = jwks := by simpa using hget
      rw [hfind] at hfind2
      obtain rfl : key = key2 := by simpa using hfind2
      have := create_decoding_key_ec_family hkty hdk
      rw [hfam] at this
      exact absurd this (by decide)
    | error e => rfl

/-- Witness for C10: the HS256-headed token is rejected; EC key material is
constructible from `exKeyEc`; the token selecting `exKeyEc` is rejected. -/
theorem rs256_enforced_witness :
    exTokenHs.header.alg ≠ .RS256 ∧
    (validate_token exCfg (some ⟨exJwks, exNow⟩) exNow (.ok exJwks)
        exTokenHs).fst.isOk = false ∧
    create_decoding_key exKeyEc = .ok (.ec "coordX" "coordY") ∧
    find_key exJwksEc exTokenEc.header.kid = some exKeyEc ∧
    (validate_token exCfg (some ⟨exJwksEc, exNow⟩) exNow (.ok exJwksEc)
        exTokenEc).fst.isOk = false :=
  ⟨by decide,
   rs256_enforced.1 exCfg (some ⟨exJwks, exNow⟩) exNow (.ok exJwks) exTokenHs
     (by decide),
   rs256_enforced.2.1 exKeyEc "coordX" "coordY" rfl rfl rfl,
   by decide,
   rs256_enforced.2.2 exCfg exJwksEc exNow exNow (.ok exJwksEc) exTokenEc
     exKeyEc (by decide) (by decide) rfl⟩

/-- Counterexample to C1 as stated: `exTokenCross` is signed (RS256) with
key `key-b`, which is present in the current key set, its `exp` is in the
future and its `iss`/`aud` match the configuration — yet `validate_token`
fails, because the token declares `kid` `key-a` and is therefore checked
against `key-a`'s material. -/
theorem valid_signer_in_set_rejected :
    (∃ K, K ∈ exJwks.keys ∧ create_decoding_key K = .ok exTokenCross.sig.key) ∧
    exTokenCross.sig.alg = .RS256 ∧
    exNow < exTokenCross.claims.exp ∧
    exTokenCross.claims.iss = exCfg.issuer_url ∧
    audOk (build_validation exCfg).aud exTokenCross.claims = true ∧
    (validate_token exCfg (some ⟨exJwks, exNow⟩) exNow (.ok exJwks)
        exTokenCross).fst = .error .invalidSignature := by
  refine ⟨⟨exKeyB, by decide, rfl⟩, rfl, by decide, rfl, rfl, rfl⟩

/-- Claim C1 (amended): for every token signed with RS256 by the key that
`find_key` selects for it — the key whose `kid` equals the token's
declared `kid`, or the set's first key when none is declared — where that
key is an RSA record, with `exp` in the future and `iss`/`aud` matching
the configuration, `validate_token` succeeds and the returned claims'
`sub` equals the token's `sub`. -/
theorem validate_token_sound (cfg : OidcConfig) (J : Jwks) (t now : Nat)
    (fetched : Except String Jwks) (token : Token) (K : JwksKey)
    (n e : String)
    (hfresh : now - t < cfg.jwks_cache_duration_seconds)
    (hfind : find_key J token.header.kid = some K)
    (hkty : K.kty = "RSA") (hn : K.n = some n) (he : K.e = some e)
    (halg : token.header.alg = .RS256)
    (hsig : token.sig = ⟨.RS256, .rsa n e⟩)
    (hexp : now < token.claims.exp)
    (hiss : token.claims.iss = cfg.issuer_url)
    (haud : audOk (build_validation cfg).aud token.claims = true) :
    ∃ c, (validate_token cfg (some ⟨J, t⟩) now fetched token).fst = .ok c ∧
      c.sub = token.claims.sub := by
  refine ⟨token.claims, ?_, rfl⟩
  have hget : get_jwks cfg (some ⟨J, t⟩) now fetched =
      ⟨.ok J, some ⟨J, t⟩, false⟩ := by
    simp only [get_jwks]
    rw [if_pos hfresh]
  have hcreate : create_decoding_key K = .ok (.rsa n e) := by
    unfold create_decoding_key
    rw [if_pos hkty, hn, he]
  have halgmem : token.header.alg ∈ (build_validation cfg).algorithms := by
    rw [halg, build_validation_algorithms]
    exact List.mem_singleton.mpr rfl
  have hfam : (DecodingKey.rsa n e).family = token.header.alg.family := by
    rw [halg]
    rfl
  have hsigok : token.sig.alg = token.header.alg ∧
      token.sig.key = DecodingKey.rsa n e := by
    rw [hsig, halg]
    exact ⟨rfl, rfl⟩
  have hnotexp : ¬ token.claims.exp < now - (build_validation cfg).leeway := by
    rw [build_validation_leeway]
    omega
  have hissok : issOk (build_validation cfg).iss token.claims = true := by
    rw [build_validation_iss]
    exact (issOk_singleton cfg.issuer_url token.claims).mpr hiss
  have hdecode : decode token (.rsa n e) (build_validation cfg) now =
      .ok token.claims := by
    unfold decode
    rw [if_pos halgmem, if_pos hfam, if_pos hsigok, if_neg hnotexp,
      if_pos hissok, if_pos haud]
  unfold validate_token
  rw [hget]
  dsimp only
  rw [hfind]
  dsimp only
  rw [hcreate]
  dsimp only
  exact hdecode

/-- Witness for C1: the well-formed token `exTokenGood` (declares and is
signed by `key-a`, fresh cache, future `exp`, matching `iss`/`aud`)
validates, with subject preserved. -/
theorem validate_token_sound_witness :
    ∃ c, (validate_token exCfg (some ⟨exJwks, exNow⟩) exNow (.ok exJwks)
        exTokenGood).fst = .ok c ∧ c.sub = exTokenGood.claims.sub :=
  validate_token_sound exCfg exJwks exNow exNow (.ok exJwks) exTokenGood
    exKeyA "modulusA" "AQAB" (by decide) (by decide) rfl rfl rfl rfl rfl
    (by decide) rfl rfl

/-- Claim C7: in every reachable state of the session gate the number of
unreleased permit holders never exceeds the configured `max_connections`;
and with capacity 2, tasks 1 and 2 are admitted at once (the `grant`
preconditions hold immediately), task 3's request cannot be granted by any
transition while both hold, and after task 1 releases, task 3 is granted. -/
theorem session_gate_bounded :
    (∀ (cfg : DatabaseConfig) (s : PoolState),
      PoolReachable cfg s → s.holders.length ≤ cfg.max_connections) ∧
    PoolStep poolP0 poolP1 ∧ PoolStep poolP1 poolP2 ∧
    PoolStep poolP2 poolP3 ∧ PoolStep poolP3 poolP4 ∧
    PoolStep poolP4 poolP5 ∧
    (∀ s, PoolStep poolP5 s → 3 ∉ s.holders) ∧
    PoolStep poolP5 poolP6 ∧ PoolStep poolP6 poolP7 ∧ 3 ∈ poolP7.holders := by
  refine ⟨?_, ?_, ?_, ?_, ?_, ?_, ?_, ?_, ?_, ?_⟩
  · intro cfg s hreach
    obtain ⟨hmax, hlen, -⟩ := poolInv_reachable hreach
    exact hmax ▸ hlen
  · exact PoolStep.request poolP0 1 (by decide) (by decide)
  · exact PoolStep.grant poolP1 1 (by decide) (by decide)
  · exact PoolStep.request poolP2 2 (by decide) (by decide)
  · exact PoolStep.grant poolP3 2 (by decide) (by decide)
  · exact PoolStep.request poolP4 3 (by decide) (by decide)
  · intro s hstep
    cases hstep with
    | request id hH hW =>
      show 3 ∉ poolP5.holders
      decide
    | grant id hW hlt => exact absurd hlt (by decide)
    | cancel id hW =>
      show 3 ∉ poolP5.holders
      decide
    | release id hH =>
      intro hmem
      exact absurd (List.mem_of_mem_erase hmem) (by decide)
  · exact PoolStep.release poolP5 1 (by decide)
  · exact PoolStep.grant poolP6 3 (by decide) (by decide)
  · decide

/-- Witness for C7: the bound instantiated at the initial pool state of
the capacity-2 configuration. -/
theorem session_gate_bounded_witness :
    (PoolState.init exDbCfg).holders.length ≤ exDbCfg.max_connections :=
  session_gate_bounded.1 exDbCfg (PoolState.init exDbCfg)
    Relation.ReflTransGen.refl

/-- Claim C8: an acquire that is cancelled or times out while still
waiting (its `acquire_owned` future is dropped before a permit is
granted) takes a `cancel` transition: the waiter leaves the queue with no
permit consumed — the holder set and the available capacity
`max_connections - holders.length` are unchanged, and the cancelled task
holds nothing. -/
theorem cancelled_acquire_consumes_no_permit
    (cfg : DatabaseConfig) (s : PoolState) (id : Nat)
    (hreach : PoolReachable cfg s) (hw : id ∈ s.waiting) :
    ∃ s2, PoolStep s s2 ∧ s2.holders = s.holders ∧
      id ∉ s2.waiting ∧ id ∉ s2.holders ∧
      s2.max_connections - s2.holders.length =
        s.max_connections - s.holders.length := by
  obtain ⟨-, -, -, hnodW, hdisj⟩ := poolInv_reachable hreach
  refine ⟨⟨s.max_connections, s.holders, s.waiting.erase id⟩,
    PoolStep.cancel s id hw, rfl, ?_, fun hmem => hdisj id hmem hw, rfl⟩
  intro hmem
  exact ((List.Nodup.mem_erase_iff hnodW).mp hmem).1 rfl

/-- Witness for C8: task 7, waiting in `poolW` (reached by one `request`),
is cancelled; no permit is consumed and capacity is unchanged. -/
theorem cancelled_acquire_witness :
    7 ∈ poolW.waiting ∧
    ∃ s2, PoolStep poolW s2 ∧ s2.holders = poolW.holders ∧
      7 ∉ s2.waiting ∧ 7 ∉ s2.holders ∧
      s2.max_connections - s2.holders.length =
        poolW.max_connections - poolW.holders.length :=
  ⟨by decide,
   cancelled_acquire_consumes_no_permit exDbCfg poolW 7
     (Relation.ReflTransGen.single
       (PoolStep.request (PoolState.init exDbCfg) 7 (by decide) (by decide)))
     (by decide)⟩

end Pgmug
